import Mathlib

/-!
Verification of the job-digest pipeline (src/digest.py, src/scraper.py).

The development shallowly embeds the two Python modules.  External
collaborators (the HTTP client, BeautifulSoup, Playwright, the json
parser, the Gmail client, the Anthropic client and the system clock) are
modelled as explicit function parameters or as opaque string inputs; the
glue logic that the repository itself contributes — grouping, sorting,
rendering, response cleaning, strategy dispatch, truthiness filtering,
credential-field access — is translated line by line from the source.
-/

namespace JobDigest

/-- JSON values as produced by `json.loads`.  Numbers are modelled as
integers: no claim concerns numeric field values, and the digest code
never does arithmetic on them. -/
inductive Json where
  | null
  | bool (b : Bool)
  | num (n : Int)
  | str (s : String)
  | arr (elems : List Json)
  | obj (fields : List (String × Json))

/-- Is the value a JSON string?  (`isinstance(x, str)` / has `.upper()`.) -/
def Json.isStr : Json → Bool
  | .str _ => true
  | _ => false

/-- Is the value a JSON array?  (`isinstance(jobs, list)` in digest.py line 60.) -/
def Json.isArr : Json → Bool
  | .arr _ => true
  | _ => false

/-- A single-quote character, used by the Python `repr` of strings. -/
def sq : String := String.singleton (Char.ofNat 39)

/-- Python `repr()` of a parsed-JSON value, used by `str()` on containers.
Modelled without string escaping (no claim depends on container rendering). -/
def Json.pyRepr : Json → String
  | .null => "None"
  | .bool b => if b then "True" else "False"
  | .num n => toString n
  | .str s => sq ++ s ++ sq
  | .arr elems =>
      "[" ++ String.intercalate ", " (elems.attach.map (fun e => Json.pyRepr e.1)) ++ "]"
  | .obj fields =>
      "\x7b" ++
        String.intercalate ", "
          (fields.attach.map (fun kv => sq ++ kv.1.1 ++ sq ++ ": " ++ Json.pyRepr kv.1.2)) ++
        "\x7d"
  decreasing_by
  · have := List.sizeOf_lt_of_mem e.2
    simp only [Json.arr.sizeOf_spec]
    omega
  · have h1 := List.sizeOf_lt_of_mem kv.2
    have h2 : sizeOf kv.1.2 < sizeOf kv.1 := by
      obtain ⟨a, b⟩ := kv.1
      simp only [Prod.mk.sizeOf_spec]
      omega
    simp only [Json.obj.sizeOf_spec]
    omega

/-- Python `str()` of a parsed-JSON value, as used by the f-strings in
`build_email_html` (digest.py lines 90–93). -/
def Json.pyStr : Json → String
  | .str s => s
  | j => j.pyRepr

/-- A job record: a JSON object (`dict`) produced inside the model response
array.  Keys are strings; the claims about the digest restrict themselves to
records that parsed as JSON objects. -/
abbrev JobRec := List (String × Json)

/-- Python `dict[k]`-style lookup on a JSON object: `none` models `KeyError`.
`json.loads` lets a later duplicate key overwrite an earlier one, hence the
lookup scans from the end. -/
def pyIndex (kvs : List (String × Json)) (k : String) : Option Json :=
  (kvs.reverse.find? (fun kv => kv.1 == k)).map (fun kv => kv.2)

/-- Python `dict.get(k, d)`: the default is used only when the key is absent
(a present `null` value is returned as-is). -/
def pyGet (j : JobRec) (k : String) (d : Json) : Json :=
  (pyIndex j k).getD d

/-- `job.get("company", "Unknown")` — digest.py line 76. -/
def companyOf (j : JobRec) : Json :=
  pyGet j "company" (Json.str "Unknown")

/-- The company key as a string.  Only meaningful when `(companyOf j).isStr`;
`build_email_html` raises before ever using a non-string key (see below). -/
def companyStr (j : JobRec) : String :=
  match companyOf j with
  | Json.str s => s
  | _ => ""

/-- One step of the dict-building loop of digest.py lines 75–79: append the
job to its company bucket, creating the bucket at the end on first sight
(Python dicts preserve insertion order). -/
def insertJob (acc : List (String × List JobRec)) (j : JobRec) :
    List (String × List JobRec) :=
  if acc.any (fun g => g.1 == companyStr j) then
    acc.map (fun g => if g.1 == companyStr j then (g.1, g.2 ++ [j]) else g)
  else
    acc ++ [(companyStr j, [j])]

/-- The `by_company` dict of digest.py lines 74–79, as an insertion-ordered
association list. -/
def groupByCompany (jobs : List JobRec) : List (String × List JobRec) :=
  jobs.foldl insertJob []

/-- `sorted(by_company.items())` — digest.py line 86.  The tuple comparison
starts with the (unique) keys, so a stable sort by key is exact. -/
def sortGroups (gs : List (String × List JobRec)) : List (String × List JobRec) :=
  List.insertionSort (fun a b => a.1 ≤ b.1) gs

/-- Python `s * n` for strings. -/
def strRepeat (s : String) (n : Nat) : String :=
  String.join (List.replicate n s)

/-- Python `str.upper()`.  `Char.toUpper` only uppercases ASCII, while Python
uppercases full Unicode; no claim depends on non-ASCII case mapping. -/
def pyUpper (s : String) : String :=
  String.mk (s.toList.map Char.toUpper)

/-- `str(job.get(k, ""))` as rendered into an f-string. -/
def fieldVal (j : JobRec) (k : String) : String :=
  Json.pyStr (pyGet j k (Json.str ""))

/-- The five lines appended for one job — digest.py lines 90–94. -/
def jobLines (j : JobRec) : List String :=
  ["📌 " ++ fieldVal j "title",
   "📍 " ++ fieldVal j "location",
   "📝 " ++ fieldVal j "summary",
   "🔗 " ++ fieldVal j "url",
   ""]

/-- The lines appended for one company group — digest.py lines 87–95. -/
def groupLines (g : String × List JobRec) : List String :=
  ("🏢 " ++ pyUpper g.1) :: strRepeat "─" 40 :: ((g.2.map jobLines).flatten ++ [""])

/-- All lines of the non-empty digest — digest.py lines 81–97. -/
def digestLines (today : String) (count : Nat)
    (groups : List (String × List JobRec)) : List String :=
  ("🧭 Job Digest — " ++ today ++ " | " ++ toString count ++ " roles found")
    :: strRepeat "=" 50 :: ""
    :: ((groups.map groupLines).flatten ++ ["— Your Job Digest Bot"])

/-- `"\n".join(lines)` — digest.py line 99. -/
def renderDigest (today : String) (count : Nat)
    (groups : List (String × List JobRec)) : String :=
  String.intercalate "\n" (digestLines today count groups)

/-- The fixed no-jobs message — digest.py line 71. -/
def emptyDigest (today : String) : String :=
  "🧭 Job Digest — " ++ today ++ "\n\n" ++
    "No matching Senior PM or Principal PM roles found today." ++
    "\n\n— Your Job Digest Bot"

/-- `build_email_html` — digest.py lines 66–99.  `today` stands for
`datetime.now().strftime("%B %d, %Y")`.  The function is modelled in
`Except`: `Except.error` marks the run raising.  In Python a non-string
company value raises on every path (an unhashable `list`/`dict` key raises
`TypeError` at dict insertion; `None`, booleans and numbers raise `TypeError`
inside `sorted` when compared with another key, or `AttributeError` at
`company.upper()`), and all-string company keys never raise; the model tests
that condition up front, which yields the same observable outcome. -/
def build_email_html (today : String) (all_jobs : List JobRec) : Except String String :=
  if all_jobs.isEmpty then
    Except.ok (emptyDigest today)
  else if all_jobs.all (fun j => (companyOf j).isStr) then
    Except.ok (renderDigest today all_jobs.length (sortGroups (groupByCompany all_jobs)))
  else
    Except.error "TypeError/AttributeError: company value is not a string"

/-! ### Extraction stage (digest.py lines 20–63)

The network call to the model and `json.loads` are external; the model
response text and the JSON parser are passed in as parameters.  `parse`
returns `none` when `json.loads` raises `JSONDecodeError`. -/

/-- Python `str.strip()` (no arguments): drop leading and trailing
whitespace.  `Char.isWhitespace` covers the ASCII whitespace class; Python
also strips some exotic Unicode whitespace, which no claim involves. -/
def pyStrip (s : String) : String :=
  String.mk
    (((s.toList.dropWhile Char.isWhitespace).reverse.dropWhile Char.isWhitespace).reverse)

/-- Python `str.replace(pat, repl)` on character lists: replace every
non-overlapping occurrence, scanning left to right.  (Python treats an
empty pattern specially; the source only replaces the non-empty fence
markers, so the empty pattern is mapped to the identity.) -/
def replaceChars (pat repl : List Char) : List Char → List Char
  | [] => []
  | c :: rest =>
      if h : pat ≠ [] ∧ pat.isPrefixOf (c :: rest) then
        repl ++ replaceChars pat repl ((c :: rest).drop pat.length)
      else
        c :: replaceChars pat repl rest
  termination_by l => l.length
  decreasing_by
  · have hp : 0 < pat.length := List.length_pos.mpr h.1
    simp [List.length_drop]
    omega
  · simp

/-- Python `str.replace` on strings. -/
def pyReplace (s pat repl : String) : String :=
  String.mk (replaceChars pat.toList repl.toList s.toList)

/-- The response-cleaning of digest.py lines 57–58: strip, remove every
occurrence of the code-fence markers, strip again. -/
def cleanResponse (resp : String) : String :=
  pyStrip (pyReplace (pyReplace (pyStrip resp) "```json" "") "```" "")

/-- The parse-and-filter tail of `extract_jobs_from_page` — digest.py
lines 56–63.  The `try`/`except` catches every exception, so a parse
failure yields `[]`; a non-array parse result also yields `[]`
(`jobs if isinstance(jobs, list) else []`). -/
def extract_jobs_from_page (parse : String → Option Json) (resp : String) : List Json :=
  match parse (cleanResponse resp) with
  | some (Json.arr elems) => elems
  | some _ => []
  | none => []

/-! ### Scraper (src/scraper.py) -/

/-- The fixed denylist — scraper.py lines 18–27. -/
def JS_REQUIRED_SITES : List String :=
  ["apple.com", "amazon.jobs", "tiktok.com", "metacareers.com",
   "careers.google.com", "snap.com", "uber.com", "careers.tubi.tv"]

/-- Python `needle in hay` on strings: contiguous-substring test. -/
def containsSub (needle hay : String) : Bool :=
  hay.toList.tails.any (fun t => needle.toList.isPrefixOf t)

/-- `needs_javascript` — scraper.py lines 29–30: `any(domain in url ...)`.
Note this is a substring test against the whole URL, not a host match. -/
def needs_javascript (url : String) : Bool :=
  JS_REQUIRED_SITES.any (fun d => containsSub d url)

/-- Python `text[:8000]` (`len` and slicing count code points). -/
def pyTake (n : Nat) (s : String) : String :=
  String.mk (s.toList.take n)

/-- `scrape_with_requests` — scraper.py lines 32–48.  `httpText url` stands
for the body of the `try` block up to `soup.get_text(...)`: the HTTP GET
with `raise_for_status` and the BeautifulSoup text extraction.  Any
exception there (transport error, non-2xx status, parse error) is the
`Except.error` case, which the `except` clause turns into `None`. -/
def scrape_with_requests (httpText : String → Except String String)
    (url : String) : Option String :=
  match httpText url with
  | Except.error _ => none
  | Except.ok t => some (pyTake 8000 t)

/-- `scrape_with_playwright` — scraper.py lines 50–69.  `renderText url`
stands for the whole `try` body up to `soup.get_text(...)`: the Playwright
import, browser launch, navigation, render and text extraction.  Any
exception — including an unavailable Playwright install — is the
`Except.error` case, which the `except` clause turns into `None`. -/
def scrape_with_playwright (renderText : String → Except String String)
    (url : String) : Option String :=
  match renderText url with
  | Except.error _ => none
  | Except.ok t => some (pyTake 8000 t)

/-- Python `str.startswith(pre)`. -/
def pyStartsWith (s pre : String) : Bool :=
  pre.toList.isPrefixOf s.toList

/-- The site-list comprehension — scraper.py lines 76–80: keep lines whose
`strip()` is non-empty and which do not start with `#` (tested on the raw
line), and yield the stripped line. -/
def loadUrls (fileLines : List String) : List String :=
  (fileLines.filter (fun l => !(pyStrip l == "") && !(pyStartsWith l "#"))).map
    (fun l => pyStrip l)

/-- The strategy dispatch of scraper.py lines 86–89. -/
def fetchResult (hR hP : String → Except String String) (url : String) :
    Option String :=
  if needs_javascript url then scrape_with_playwright hP url
  else scrape_with_requests hR url

/-- The per-site result dict holding the url and content fields. -/
structure ScrapedPage where
  url : String
  content : String
deriving DecidableEq, Repr

/-- One iteration of the scrape loop — scraper.py lines 84–97: fetch, then
`if content:` (None and the empty string are both falsy) append, else skip.
The `time.sleep(2)` pause has no observable effect on the result list. -/
def scrapeStep (hR hP : String → Except String String) (url : String) :
    Option ScrapedPage :=
  match fetchResult hR hP url with
  | none => none
  | some content => if content == "" then none else some ⟨url, content⟩

/-- `scrape_all` — scraper.py lines 71–100, with the file contents passed in
as its list of lines. -/
def scrape_all (hR hP : String → Except String String)
    (fileLines : List String) : List ScrapedPage :=
  (loadUrls fileLines).filterMap (scrapeStep hR hP)

/-! ### Mailer (digest.py lines 102–137) -/

/-- The message handed to the mail service, kept before base64url encoding
(the encoding is injective glue; claim C8 concerns only whether this point
is reached). -/
structure SentEmail where
  recipient : String
  subject : String
  raw : String
deriving DecidableEq, Repr

/-- `send_email` — digest.py lines 102–135.  `env` is
`os.environ.get("GMAIL_CREDENTIALS")`; `parse` is `json.loads`, `none`
marking a raise.  A missing variable makes `json.loads(None)` raise
`TypeError`; indexing a non-object raises `TypeError`; a missing credential
field raises `KeyError` — each strictly before `build`/`send` run, so every
`Except.error` happens with no submission attempted. -/
def send_email (env : Option String) (parse : String → Option Json)
    (yourEmail today html_content : String) (job_count : Nat) :
    Except String SentEmail :=
  match env with
  | none => Except.error "TypeError: the JSON object must be str, not NoneType"
  | some cj =>
    match parse cj with
    | none => Except.error "json.decoder.JSONDecodeError"
    | some (Json.obj kvs) =>
      match pyIndex kvs "token", pyIndex kvs "refresh_token", pyIndex kvs "token_uri",
            pyIndex kvs "client_id", pyIndex kvs "client_secret", pyIndex kvs "scopes" with
      | some _, some _, some _, some _, some _, some _ =>
        let subject := "Job Digest: " ++ toString job_count ++ " new PM roles - " ++ today
        Except.ok
          ⟨yourEmail, subject,
            String.intercalate "\n"
              ["MIME-Version: 1.0",
               "Content-Type: text/plain; charset=utf-8",
               "To: " ++ yourEmail,
               "From: " ++ yourEmail,
               "Subject: " ++ subject,
               "",
               html_content]⟩
      | _, _, _, _, _, _ => Except.error "KeyError: missing credential field"
    | some _ => Except.error "TypeError: credentials JSON is not an object"

/-! ### Host extraction (spec model, for claim C4)

The source has no host-extraction code: `needs_javascript` matches the
denylist against the whole URL string.  The spec speaks of "the URL host
match[ing] one of a fixed denylist of domains"; the following two
definitions formalise that wording so it can be compared with the code. -/

/-- Modelled from the spec: the characters following the first `"://"`
scheme separator, if any (src has no such function). -/
def afterScheme : List Char → Option (List Char)
  | [] => none
  | c :: rest =>
      if ([Char.ofNat 58, Char.ofNat 47, Char.ofNat 47]).isPrefixOf (c :: rest) then
        some (rest.drop 2)
      else afterScheme rest

/-- Modelled from the spec: the host component of a URL — what follows the
scheme separator, up to the first slash (src has no such function). -/
def hostOf (url : String) : String :=
  let cs := url.toList
  String.mk (((afterScheme cs).getD cs).takeWhile (fun x => x != Char.ofNat 47))

/-- Modelled from the spec: a host matches a denylist domain when it equals
the domain or is a subdomain of it (src has no such function). -/
def hostMatches (host d : String) : Bool :=
  host == d || ("." ++ d).toList.isSuffixOf host.toList

/-- Modelled from the spec: strategy selection by host match, the reading of
"if the URL host matches any of a fixed denylist of domains" (src instead
tests `domain in url` on the full URL string). -/
def needs_javascript_spec (url : String) : Bool :=
  JS_REQUIRED_SITES.any (fun d => hostMatches (hostOf url) d)

/-- `needle` occurs in `hay` as a contiguous substring (propositional form
of the Python `in` operator). -/
def occursIn (needle hay : String) : Prop :=
  needle.toList <:+: hay.toList

/-! ### Helper lemmas -/

/-- Boolean prefix test agrees with the prefix relation. -/
lemma isPrefixOf_iff (l₁ l₂ : List Char) : l₁.isPrefixOf l₂ = true ↔ l₁ <+: l₂ := by
  induction l₁ generalizing l₂ with
  | nil => simp [List.isPrefixOf]
  | cons a as ih =>
    cases l₂ with
    | nil => simp [List.isPrefixOf]
    | cons b bs =>
      simp only [List.isPrefixOf, Bool.and_eq_true, beq_iff_eq, ih]
      constructor
      · rintro ⟨rfl, t, rfl⟩
        exact ⟨t, rfl⟩
      · rintro ⟨t, ht⟩
        injection ht with h1 h2
        exact ⟨h1, t, h2⟩

/-- The Boolean substring test of `containsSub` agrees with `occursIn`. -/
lemma containsSub_iff (needle hay : String) :
    containsSub needle hay = true ↔ occursIn needle hay := by
  simp only [containsSub, occursIn, List.any_eq_true]
  constructor
  · rintro ⟨t, ht, hpre⟩
    exact ((isPrefixOf_iff _ _).mp hpre).isInfix.trans ((List.mem_tails _ _).mp ht).isInfix
  · rintro ⟨s, t, hst⟩
    refine ⟨needle.toList ++ t, ?_, ?_⟩
    · exact (List.mem_tails _ _).mpr ⟨s, by simpa [List.append_assoc] using hst⟩
    · exact (isPrefixOf_iff _ _).mpr ⟨t, rfl⟩

/-- The three dict-shape invariants of `groupByCompany`: keys are distinct,
each bucket holds exactly the jobs of its company in input order, and every
company of every job has a bucket. -/
lemma groupBy_props (jobs : List JobRec) :
    ((groupByCompany jobs).map Prod.fst).Nodup ∧
    (∀ g ∈ groupByCompany jobs, g.2 = jobs.filter (fun j => companyStr j == g.1)) ∧
    (∀ j ∈ jobs, companyStr j ∈ (groupByCompany jobs).map Prod.fst) := by
  induction jobs using List.reverseRecOn with
  | nil => simp [groupByCompany]
  | append_singleton l j ih =>
    obtain ⟨hnd, hval, hkeys⟩ := ih
    have hfold : groupByCompany (l ++ [j]) = insertJob (groupByCompany l) j := by
      simp [groupByCompany, List.foldl_append]
    set gc := groupByCompany l with hgc
    by_cases hmem : gc.any (fun g => g.1 == companyStr j)
    · -- the company already has a bucket: append to it
      have hins : insertJob gc j =
          gc.map (fun g => if g.1 == companyStr j then (g.1, g.2 ++ [j]) else g) := by
        simp [insertJob, hmem]
      have hfst : (gc.map
          (fun g => if g.1 == companyStr j then (g.1, g.2 ++ [j]) else g)).map Prod.fst =
          gc.map Prod.fst := by
        rw [List.map_map]
        apply List.map_congr_left
        intro g _
        simp only [Function.comp_apply]
        split <;> rfl
      refine ⟨?_, ?_, ?_⟩
      · rw [hfold, hins, hfst]; exact hnd
      · intro g' hg'
        rw [hfold, hins] at hg'
        obtain ⟨g, hg, hgeq⟩ := List.mem_map.mp hg'
        by_cases hg1 : g.1 == companyStr j
        · have hj1 : companyStr j = g.1 := (eq_of_beq hg1).symm
          subst hgeq
          simp only [hg1, if_pos]
          simp only [List.filter_append, hval g hg]
          have : List.filter (fun j' => companyStr j' == g.1) [j] = [j] := by
            simp [List.filter, hj1]
          rw [this]
        · subst hgeq
          simp only [hg1, if_neg, Bool.not_eq_true]
          simp only [List.filter_append, hval g hg]
          have : List.filter (fun j' => companyStr j' == g.1) [j] = [] := by
            have : (companyStr j == g.1) = false := by
              rcases Bool.eq_false_iff.mp (Bool.not_eq_true _ ▸ hg1) with h
              simp only [beq_eq_false_iff_ne] at hg1 ⊢
              exact fun hc => hg1 (by simp [hc])
            simp [List.filter, this]
          rw [this, List.append_nil]
      · intro j' hj'
        rw [hfold, hins, hfst]
        rcases List.mem_append.mp hj' with hj' | hj'
        · exact hkeys j' hj'
        · obtain ⟨g, hg, hgeq⟩ := List.any_eq_true.mp hmem
          have : companyStr j' = g.1 := by
            rcases List.mem_singleton.mp hj' with rfl
            exact (eq_of_beq hgeq).symm
          rw [this]
          exact List.mem_map.mpr ⟨g, hg, rfl⟩
    · -- first job of this company: a fresh bucket at the end
      have hins : insertJob gc j = gc ++ [(companyStr j, [j])] := by
        simp [insertJob, hmem]
      have hnotkey : companyStr j ∉ gc.map Prod.fst := by
        intro hc
        obtain ⟨g, hg, hgeq⟩ := List.mem_map.mp hc
        exact hmem (List.any_eq_true.mpr ⟨g, hg, by simp [hgeq]⟩)
      refine ⟨?_, ?_, ?_⟩
      · rw [hfold, hins, List.map_append]
        exact List.nodup_append.mpr ⟨hnd, List.nodup_singleton _,
          fun a ha hb => hnotkey (by rcases List.mem_singleton.mp hb with rfl; exact ha)⟩
      · intro g' hg'
        rw [hfold, hins] at hg'
        rcases List.mem_append.mp hg' with hg | hg
        · simp only [List.filter_append, hval g' hg]
          have : List.filter (fun j' => companyStr j' == g'.1) [j] = [] := by
            have : (companyStr j == g'.1) = false := by
              simp only [beq_eq_false_iff_ne]
              intro hc
              exact hnotkey (hc ▸ List.mem_map.mpr ⟨g', hg, rfl⟩)
            simp [List.filter, this]
          rw [this, List.append_nil]
        · rcases List.mem_singleton.mp hg with rfl
          simp only [List.filter_append]
          have h1 : List.filter (fun j' => companyStr j' == companyStr j) l = [] := by
            rw [List.filter_eq_nil_iff]
            intro j' hj' hc
            exact hnotkey ((eq_of_beq hc) ▸ hkeys j' hj')
          have h2 : List.filter (fun j' => companyStr j' == companyStr j) [j] = [j] := by
            simp [List.filter]
          rw [h1, h2, List.nil_append]
      · intro j' hj'
        rw [hfold, hins, List.map_append]
        rcases List.mem_append.mp hj' with hj' | hj'
        · exact List.mem_append.mpr (Or.inl (hkeys j' hj'))
        · rcases List.mem_singleton.mp hj' with rfl
          exact List.mem_append.mpr (Or.inr (by simp))

/-- Sorting the groups permutes them. -/
lemma sortGroups_perm (gs : List (String × List JobRec)) :
    List.Perm (sortGroups gs) gs :=
  List.perm_insertionSort _ _

/-- Sorting the groups orders their keys weakly ascending. -/
lemma sortGroups_sorted (gs : List (String × List JobRec)) :
    List.Pairwise (fun a b : String × List JobRec => a.1 ≤ b.1) (sortGroups gs) := by
  haveI : IsTotal (String × List JobRec) (fun a b => a.1 ≤ b.1) :=
    ⟨fun a b => le_total a.1 b.1⟩
  haveI : IsTrans (String × List JobRec) (fun a b => a.1 ≤ b.1) :=
    ⟨fun _ _ _ h1 h2 => le_trans h1 h2⟩
  exact List.sorted_insertionSort _ _

/-- Group membership is unchanged by the sort. -/
lemma sortGroups_mem {gs : List (String × List JobRec)}
    {g : String × List JobRec} : g ∈ sortGroups gs ↔ g ∈ gs :=
  (sortGroups_perm gs).mem_iff

/-- The sorted group keys are strictly ascending (keys are distinct). -/
lemma sortGroups_keys_strict (jobs : List JobRec) :
    List.Pairwise (fun a b : String => a < b)
      ((sortGroups (groupByCompany jobs)).map Prod.fst) := by
  have hnd : ((sortGroups (groupByCompany jobs)).map Prod.fst).Nodup :=
    (List.Perm.nodup_iff ((sortGroups_perm _).map Prod.fst)).mpr (groupBy_props jobs).1
  have hle : List.Pairwise (fun a b : String => a ≤ b)
      ((sortGroups (groupByCompany jobs)).map Prod.fst) :=
    (List.pairwise_map).mpr (sortGroups_sorted (groupByCompany jobs))
  exact (hnd.and hle).imp (fun h => lt_of_le_of_ne h.2 h.1)

/-! ### Claim C1 -/

/-- Claim C1: for every (non-empty) job list whose company values are
strings — `build_email_html` raises on any other list, see C2 — the
plain-text digest renders the jobs grouped by company with "Unknown" as the
default for an absent company; the group keys are strictly ascending, each
group holds exactly the jobs of its company in input order, and every job
lies in exactly the one group keyed by its company. -/
theorem claim1_grouping (today : String) (jobs : List JobRec)
    (hne : jobs.isEmpty = false)
    (hstr : jobs.all (fun j => (companyOf j).isStr) = true) :
    build_email_html today jobs =
      Except.ok (renderDigest today jobs.length (sortGroups (groupByCompany jobs))) ∧
    List.Pairwise (fun a b : String => a < b)
      ((sortGroups (groupByCompany jobs)).map Prod.fst) ∧
    (∀ g ∈ sortGroups (groupByCompany jobs),
        g.2 = jobs.filter (fun j => companyStr j == g.1)) ∧
    (∀ j ∈ jobs, ∃ g ∈ sortGroups (groupByCompany jobs),
        g.1 = companyStr j ∧ j ∈ g.2) ∧
    (∀ j ∈ jobs, pyIndex j "company" = none → companyStr j = "Unknown") := by
  refine ⟨?_, sortGroups_keys_strict jobs, ?_, ?_, ?_⟩
  · simp [build_email_html, hne, hstr]
  · intro g hg
    exact (groupBy_props jobs).2.1 g (sortGroups_mem.mp hg)
  · intro j hj
    obtain ⟨g, hgmem, hfst⟩ := List.mem_map.mp ((groupBy_props jobs).2.2 j hj)
    refine ⟨g, sortGroups_mem.mpr hgmem, hfst, ?_⟩
    rw [(groupBy_props jobs).2.1 g hgmem]
    exact List.mem_filter.mpr ⟨hj, by simp [hfst]⟩
  · intro j _ hidx
    simp [companyStr, companyOf, pyGet, hidx]

/-- A concrete two-company job list used to witness C1. -/
def jobsEx : List JobRec :=
  [[("title", Json.str "PM"), ("company", Json.str "Acme"),
    ("location", Json.str "Remote"), ("url", Json.str "http://a"),
    ("summary", Json.str "x")],
   [("title", Json.str "Sr PM"), ("company", Json.str "Beta"),
    ("location", Json.str "NYC"), ("url", Json.str "http://b"),
    ("summary", Json.str "y")]]

/-- Witness for C1 at a concrete job list. -/
theorem claim1_grouping_witness :
    (jobsEx.isEmpty = false ∧
      jobsEx.all (fun j => (companyOf j).isStr) = true) ∧
    (build_email_html "October 12, 2025" jobsEx =
      Except.ok (renderDigest "October 12, 2025" jobsEx.length
        (sortGroups (groupByCompany jobsEx))) ∧
    List.Pairwise (fun a b : String => a < b)
      ((sortGroups (groupByCompany jobsEx)).map Prod.fst) ∧
    (∀ g ∈ sortGroups (groupByCompany jobsEx),
        g.2 = jobsEx.filter (fun j => companyStr j == g.1)) ∧
    (∀ j ∈ jobsEx, ∃ g ∈ sortGroups (groupByCompany jobsEx),
        g.1 = companyStr j ∧ j ∈ g.2) ∧
    (∀ j ∈ jobsEx, pyIndex j "company" = none → companyStr j = "Unknown")) :=
  ⟨⟨rfl, rfl⟩, claim1_grouping "October 12, 2025" jobsEx rfl rfl⟩

/-! ### Claim C2 -/

/-- The five lines of a job block occur contiguously in the digest lines of
any job list containing the job. -/
lemma jobLines_infix_digest (today : String) (jobs : List JobRec) (j : JobRec)
    (hj : j ∈ jobs) :
    jobLines j <:+: digestLines today jobs.length (sortGroups (groupByCompany jobs)) := by
  obtain ⟨g, hgmem, hfst⟩ := List.mem_map.mp ((groupBy_props jobs).2.2 j hj)
  have hjin : j ∈ g.2 := by
    rw [(groupBy_props jobs).2.1 g hgmem]
    exact List.mem_filter.mpr ⟨hj, by simp [hfst]⟩
  have h1 : jobLines j <:+: (g.2.map jobLines).flatten :=
    List.infix_of_mem_flatten (List.mem_map.mpr ⟨j, hjin, rfl⟩)
  have h2 : (g.2.map jobLines).flatten <:+: groupLines g :=
    ⟨[("🏢 " ++ pyUpper g.1), strRepeat "─" 40], [""], rfl⟩
  have h3 : groupLines g <:+:
      ((sortGroups (groupByCompany jobs)).map groupLines).flatten :=
    List.infix_of_mem_flatten (List.mem_map.mpr ⟨g, sortGroups_mem.mpr hgmem, rfl⟩)
  have h4 : ((sortGroups (groupByCompany jobs)).map groupLines).flatten <:+:
      digestLines today jobs.length (sortGroups (groupByCompany jobs)) :=
    ⟨[("🧭 Job Digest — " ++ today ++ " | " ++ toString jobs.length ++ " roles found"),
      strRepeat "=" 50, ""], ["— Your Job Digest Bot"], rfl⟩
  exact h1.trans (h2.trans (h3.trans h4))

/-- Counterexample to C2 as stated: the single record whose only field is a null-valued company is
a JSON object with a null-valued field, yet `build_email_html` raises on it
(`None.upper()` is an `AttributeError`), instead of rendering it. -/
theorem claim2_counterexample :
    (build_email_html "October 12, 2025" [[("company", Json.null)]]).isOk = false :=
  rfl

/-- Claim C2 (amended): for every list of job records parsed as JSON objects
whose `company` field, when present, is a string — a non-string company value
makes `build_email_html` raise — building the plain-text digest does not
raise, the five-line block of every record is rendered in the digest, and each
missing `title`, `location`, `summary` or `url` field renders as the empty
string (its line is present, never omitted). -/
theorem claim2_rendering (today : String) (jobs : List JobRec)
    (hstr : jobs.all (fun j => (companyOf j).isStr) = true) :
    (build_email_html today jobs).isOk = true ∧
    (jobs.isEmpty = false →
      build_email_html today jobs = Except.ok (String.intercalate "\n"
        (digestLines today jobs.length (sortGroups (groupByCompany jobs))))) ∧
    (∀ j ∈ jobs, jobLines j <:+:
        digestLines today jobs.length (sortGroups (groupByCompany jobs))) ∧
    (∀ j ∈ jobs, ∀ k ∈ ["title", "location", "summary", "url"],
        pyIndex j k = none → fieldVal j k = "") := by
  refine ⟨?_, ?_, ?_, ?_⟩
  · by_cases he : jobs.isEmpty <;> simp [build_email_html, he, hstr] <;> rfl
  · intro he
    simp [build_email_html, he, hstr, renderDigest]
  · intro j hj
    exact jobLines_infix_digest today jobs j hj
  · intro j _ k _ hnone
    simp [fieldVal, pyGet, hnone, Json.pyStr]

/-- A concrete one-record job list with every optional field missing, used
to witness C2. -/
def jobsEx2 : List JobRec :=
  [[("company", Json.str "Acme")]]

/-- Witness for the amended C2 at a concrete partial record. -/
theorem claim2_rendering_witness :
    (jobsEx2.all (fun j => (companyOf j).isStr) = true) ∧
    ((build_email_html "October 12, 2025" jobsEx2).isOk = true ∧
    (jobsEx2.isEmpty = false →
      build_email_html "October 12, 2025" jobsEx2 = Except.ok (String.intercalate "\n"
        (digestLines "October 12, 2025" jobsEx2.length
          (sortGroups (groupByCompany jobsEx2))))) ∧
    (∀ j ∈ jobsEx2, jobLines j <:+:
        digestLines "October 12, 2025" jobsEx2.length
          (sortGroups (groupByCompany jobsEx2))) ∧
    (∀ j ∈ jobsEx2, ∀ k ∈ ["title", "location", "summary", "url"],
        pyIndex j k = none → fieldVal j k = "")) :=
  ⟨rfl, claim2_rendering "October 12, 2025" jobsEx2 rfl⟩

/-! ### Claim C3 -/

/-- Claim C3: extraction is total (the `try`/`except` catches everything):
if the cleaned response fails to parse it returns `[]`; if it parses to a
non-array (e.g. a JSON object) it returns `[]`; if it parses to a JSON array
— the code-fence markers having been stripped by `cleanResponse` — it
returns exactly the parsed records.  `parse` abstracts `json.loads`, `none`
standing for a parse exception. -/
theorem claim3_extract (parse : String → Option Json) (resp : String) :
    (parse (cleanResponse resp) = none → extract_jobs_from_page parse resp = []) ∧
    (∀ j, parse (cleanResponse resp) = some j → j.isArr = false →
        extract_jobs_from_page parse resp = []) ∧
    (∀ elems, parse (cleanResponse resp) = some (Json.arr elems) →
        extract_jobs_from_page parse resp = elems) := by
  refine ⟨?_, ?_, ?_⟩
  · intro h
    simp [extract_jobs_from_page, h]
  · intro j h hj
    cases j <;> simp_all [extract_jobs_from_page, Json.isArr]
  · intro elems h
    simp [extract_jobs_from_page, h]

/-- A parser stub returning a fixed two-element array, used to witness C3. -/
def parseEx : String → Option Json :=
  fun _ => some (Json.arr [Json.num 1, Json.num 2])

/-- Witness for C3 at a concrete fenced response. -/
theorem claim3_extract_witness :
    (parseEx (cleanResponse "```json [1, 2] ```") =
        some (Json.arr [Json.num 1, Json.num 2])) ∧
    extract_jobs_from_page parseEx "```json [1, 2] ```" = [Json.num 1, Json.num 2] :=
  ⟨rfl, (claim3_extract parseEx "```json [1, 2] ```").2.2 [Json.num 1, Json.num 2] rfl⟩

/-! ### Claim C7 -/

/-- A string occurs in any extension of a string it occurs in, on the left. -/
lemma occursIn_prepend (s : String) {needle hay : String} (h : occursIn needle hay) :
    occursIn needle (s ++ hay) := by
  obtain ⟨u, v, huv⟩ := h
  refine ⟨s.toList ++ u, v, ?_⟩
  have h2 : s.toList ++ (u ++ needle.toList ++ v) = s.toList ++ hay.toList := by
    rw [huv]
  simpa [List.append_assoc] using h2

/-- Claim C7: for the empty job list the digest is the fixed message, which
contains the literal no-roles sentence and the date of today. -/
theorem claim7_empty (today : String) :
    build_email_html today [] = Except.ok (emptyDigest today) ∧
    occursIn "No matching Senior PM or Principal PM roles found today."
      (emptyDigest today) ∧
    occursIn today (emptyDigest today) := by
  refine ⟨rfl, ?_, ?_⟩
  · refine ⟨"🧭 Job Digest — ".toList ++ today.toList ++ "\n\n".toList,
      "\n\n— Your Job Digest Bot".toList, ?_⟩
    simp [emptyDigest, List.append_assoc]
  · refine ⟨"🧭 Job Digest — ".toList,
      ("\n\n" ++ "No matching Senior PM or Principal PM roles found today." ++
        "\n\n— Your Job Digest Bot").toList, ?_⟩
    simp [emptyDigest, List.append_assoc]

/-! ### Shared fetch stubs for witnesses -/

/-- A fetch stub that always fails (transport error / missing Playwright). -/
def errFetch : String → Except String String :=
  fun _ => Except.error "connection refused"

/-- A fetch stub that always succeeds with a short page text. -/
def okFetch : String → Except String String :=
  fun _ => Except.ok "Senior PM role"

/-- A fetch stub whose page text extracts to the empty string. -/
def emptyFetch : String → Except String String :=
  fun _ => Except.ok ""

/-! ### Claim C4 -/

/-- Counterexample to C4 as stated: the URL
`https://example.com/apple.com` has host `example.com`, which matches no
denylist domain, yet the code routes it to the rendering strategy because
`"apple.com" in url` is a substring test over the whole URL. -/
theorem claim4_counterexample :
    needs_javascript "https://example.com/apple.com" = true ∧
    needs_javascript_spec "https://example.com/apple.com" = false :=
  ⟨rfl, rfl⟩

/-- Claim C4 (amended): for every URL the fetcher uses the rendering
strategy iff the URL string contains one of the fixed denylist entries as a
substring (the code tests `domain in url`, not a host match); every other
URL uses the plain HTTP strategy. -/
theorem claim4_dispatch (hR hP : String → Except String String) (url : String) :
    (needs_javascript url = true →
        fetchResult hR hP url = scrape_with_playwright hP url) ∧
    (needs_javascript url = false →
        fetchResult hR hP url = scrape_with_requests hR url) ∧
    (needs_javascript url = true ↔ ∃ d ∈ JS_REQUIRED_SITES, occursIn d url) := by
  refine ⟨?_, ?_, ?_⟩
  · intro h
    simp [fetchResult, h]
  · intro h
    simp [fetchResult, h]
  · simp only [needs_javascript, List.any_eq_true]
    constructor
    · rintro ⟨d, hd, hc⟩
      exact ⟨d, hd, (containsSub_iff d url).mp hc⟩
    · rintro ⟨d, hd, hc⟩
      exact ⟨d, hd, (containsSub_iff d url).mpr hc⟩

/-- Witness for the amended C4 at a concrete denylisted URL. -/
theorem claim4_dispatch_witness :
    needs_javascript "https://jobs.apple.com/en-us" = true ∧
    fetchResult errFetch errFetch "https://jobs.apple.com/en-us" =
      scrape_with_playwright errFetch "https://jobs.apple.com/en-us" :=
  ⟨rfl, (claim4_dispatch errFetch errFetch "https://jobs.apple.com/en-us").1 rfl⟩

/-! ### Claim C5 -/

/-- Claim C5: fetching never raises: both strategies are total functions
whose every underlying error (transport error, non-2xx status, browser
launch failure, navigation timeout, render error, unavailable Playwright)
yields `none`, and whose successes yield the truncated text. -/
theorem claim5_fetch_total (hR hP : String → Except String String) (url : String) :
    (∀ e, hR url = Except.error e → scrape_with_requests hR url = none) ∧
    (∀ e, hP url = Except.error e → scrape_with_playwright hP url = none) ∧
    (∀ t, hR url = Except.ok t →
        scrape_with_requests hR url = some (pyTake 8000 t)) ∧
    (∀ t, hP url = Except.ok t →
        scrape_with_playwright hP url = some (pyTake 8000 t)) := by
  refine ⟨?_, ?_, ?_, ?_⟩ <;> intro x h <;>
    simp [scrape_with_requests, scrape_with_playwright, h]

/-- Witness for C5 at a concrete failing fetch. -/
theorem claim5_fetch_total_witness :
    errFetch "https://example.org/careers" = Except.error "connection refused" ∧
    scrape_with_requests errFetch "https://example.org/careers" = none :=
  ⟨rfl, (claim5_fetch_total errFetch errFetch "https://example.org/careers").1
    "connection refused" rfl⟩

/-! ### Claim C6 -/

/-- Forward elimination for one loop step: an appended page records its own
URL, the fetched content, and that content is non-empty. -/
lemma scrapeStep_some_elim (hR hP : String → Except String String) (u : String)
    (p : ScrapedPage) (h : scrapeStep hR hP u = some p) :
    fetchResult hR hP u = some p.content ∧ p.content ≠ "" ∧ p.url = u := by
  rcases hf : fetchResult hR hP u with _ | c
  · simp [scrapeStep, hf] at h
  · by_cases hc : c = ""
    · subst hc
      simp [scrapeStep, hf] at h
    · have h2 : scrapeStep hR hP u = some ⟨u, c⟩ := by
        simp [scrapeStep, hf, hc]
      rw [h2] at h
      injection h with h
      subst h
      exact ⟨rfl, hc, rfl⟩

/-- Introduction for one loop step: non-none, non-empty content is appended. -/
lemma scrapeStep_of_fetch (hR hP : String → Except String String) (u c : String)
    (hf : fetchResult hR hP u = some c) (hc : c ≠ "") :
    scrapeStep hR hP u = some ⟨u, c⟩ := by
  simp [scrapeStep, hf, hc]

/-- The URLs of the kept pages form a subsequence of the visited URLs. -/
lemma map_url_filterMap_sublist (hR hP : String → Except String String) :
    ∀ l : List String,
      ((l.filterMap (scrapeStep hR hP)).map ScrapedPage.url).Sublist l
  | [] => by simp
  | u :: t => by
    rcases hs : scrapeStep hR hP u with _ | p
    · simp only [List.filterMap_cons, hs]
      exact (map_url_filterMap_sublist hR hP t).cons u
    · simp only [List.filterMap_cons, hs, List.map_cons]
      have hu : p.url = u := (scrapeStep_some_elim hR hP u p hs).2.2
      rw [hu]
      exact (map_url_filterMap_sublist hR hP t).cons₂ u

/-- Counterexample to C6 as stated: for the single site
`https://example.org` the plain fetch returns non-none content (`some ""`,
an empty extracted page text), yet the orchestrator appends nothing —
appending is guarded by Python truthiness, which also drops empty strings. -/
theorem claim6_counterexample :
    scrape_with_requests emptyFetch "https://example.org" = some "" ∧
    scrape_all emptyFetch errFetch ["https://example.org"] = [] :=
  ⟨rfl, rfl⟩

/-- Claim C6 (amended): the orchestrator visits the loaded URLs in file
order and appends a ScrapedPage exactly when the fetch returned non-none,
non-empty content; it returns only the successfully fetched pages, in file
order, and is total, so no per-site fetch failure can fail the run. -/
theorem claim6_orchestrator (hR hP : String → Except String String)
    (fileLines : List String) :
    ((scrape_all hR hP fileLines).map ScrapedPage.url).Sublist (loadUrls fileLines) ∧
    (∀ p ∈ scrape_all hR hP fileLines,
        fetchResult hR hP p.url = some p.content ∧ p.content ≠ "") ∧
    (∀ u ∈ loadUrls fileLines, ∀ c, fetchResult hR hP u = some c → c ≠ "" →
        (⟨u, c⟩ : ScrapedPage) ∈ scrape_all hR hP fileLines) := by
  refine ⟨map_url_filterMap_sublist hR hP (loadUrls fileLines), ?_, ?_⟩
  · intro p hp
    obtain ⟨u, _, hstep⟩ := List.mem_filterMap.mp hp
    obtain ⟨hf, hne, hurl⟩ := scrapeStep_some_elim hR hP u p hstep
    subst hurl
    exact ⟨hf, hne⟩
  · intro u hu c hf hc
    exact List.mem_filterMap.mpr ⟨u, hu, scrapeStep_of_fetch hR hP u c hf hc⟩

/-- Witness for the amended C6 at a concrete successful fetch. -/
theorem claim6_orchestrator_witness :
    ("https://example.org/jobs" ∈ loadUrls ["https://example.org/jobs"] ∧
      fetchResult okFetch errFetch "https://example.org/jobs" =
        some "Senior PM role" ∧
      ("Senior PM role" : String) ≠ "") ∧
    (⟨"https://example.org/jobs", "Senior PM role"⟩ : ScrapedPage) ∈
      scrape_all okFetch errFetch ["https://example.org/jobs"] :=
  ⟨⟨by decide, rfl, by decide⟩,
    (claim6_orchestrator okFetch errFetch ["https://example.org/jobs"]).2.2
      "https://example.org/jobs" (by decide) "Senior PM role" rfl (by decide)⟩

/-! ### Claim C9 -/

/-- Claim C9: the site-list loader keeps exactly the lines that are neither
blank (after stripping) nor comment lines beginning with `#`, yielding them
stripped; consequently a file of only blank/comment lines produces an empty
page sequence. -/
theorem claim9_sitelist (hR hP : String → Except String String)
    (fileLines : List String) :
    (∀ u, u ∈ loadUrls fileLines ↔
        ∃ l ∈ fileLines, ¬pyStrip l = "" ∧ pyStartsWith l "#" = false ∧
          u = pyStrip l) ∧
    ((∀ l ∈ fileLines, pyStrip l = "" ∨ pyStartsWith l "#" = true) →
        scrape_all hR hP fileLines = []) := by
  constructor
  · intro u
    constructor
    · intro hu
      obtain ⟨l, hl, rfl⟩ := List.mem_map.mp hu
      have hf := List.mem_filter.mp hl
      have hcond := hf.2
      simp only [Bool.and_eq_true, Bool.not_eq_true'] at hcond
      refine ⟨l, hf.1, ?_, ?_, rfl⟩
      · intro hc
        simp [hc] at hcond
      · simpa using hcond.2
    · rintro ⟨l, hl, hstrip, hstart, rfl⟩
      refine List.mem_map.mpr ⟨l, List.mem_filter.mpr ⟨hl, ?_⟩, rfl⟩
      simp [hstrip, hstart]
  · intro hall
    have hnil : fileLines.filter
        (fun l => !(pyStrip l == "") && !(pyStartsWith l "#")) = [] :=
      List.filter_eq_nil_iff.mpr (by
        intro a ha
        rcases hall a ha with hc | hc <;> simp [hc])
    simp [scrape_all, loadUrls, hnil]

/-- Witness for C9 at a concrete all-comment site list. -/
theorem claim9_sitelist_witness :
    (∀ l ∈ ["# jobs list", "", "   "], pyStrip l = "" ∨ pyStartsWith l "#" = true) ∧
    scrape_all errFetch errFetch ["# jobs list", "", "   "] = [] :=
  ⟨by decide,
    (claim9_sitelist errFetch errFetch ["# jobs list", "", "   "]).2 (by decide)⟩

/-! ### Claim C10 -/

/-- Truncation bounds the length by the budget. -/
lemma pyTake_length_le (n : Nat) (s : String) : (pyTake n s).length ≤ n := by
  show (s.toList.take n).length ≤ n
  rw [List.length_take]
  exact min_le_left _ _

/-- Whatever either strategy returns is a truncation, hence at most 8000
characters. -/
lemma fetch_content_le (hR hP : String → Except String String) (u c : String)
    (hf : fetchResult hR hP u = some c) : c.length ≤ 8000 := by
  unfold fetchResult at hf
  by_cases hnj : needs_javascript u
  · rw [if_pos hnj] at hf
    rcases he : hP u with e | t
    · simp [scrape_with_playwright, he] at hf
    · have : c = pyTake 8000 t := by
        rw [scrape_with_playwright, he] at hf
        simpa using hf.symm
      rw [this]
      exact pyTake_length_le 8000 t
  · rw [if_neg hnj] at hf
    rcases he : hR u with e | t
    · simp [scrape_with_requests, he] at hf
    · have : c = pyTake 8000 t := by
        rw [scrape_with_requests, he] at hf
        simpa using hf.symm
      rw [this]
      exact pyTake_length_le 8000 t

/-- Claim C10: every ScrapedPage the orchestrator returns has non-empty
content of at most 8000 characters: empty extracted text is dropped by the
truthiness check, not only `None` fetch results, and both strategies
truncate to 8000 code points. -/
theorem claim10_invariant (hR hP : String → Except String String)
    (fileLines : List String) (p : ScrapedPage)
    (hp : p ∈ scrape_all hR hP fileLines) :
    p.content ≠ "" ∧ p.content.length ≤ 8000 := by
  obtain ⟨u, _, hstep⟩ := List.mem_filterMap.mp hp
  obtain ⟨hf, hne, _⟩ := scrapeStep_some_elim hR hP u p hstep
  exact ⟨hne, fetch_content_le hR hP u p.content hf⟩

/-- Witness for C10 at a concrete scraped page. -/
theorem claim10_invariant_witness :
    ((⟨"https://careers.example/open-roles", "Senior PM role"⟩ : ScrapedPage) ∈
        scrape_all okFetch errFetch ["https://careers.example/open-roles"]) ∧
    ((⟨"https://careers.example/open-roles", "Senior PM role"⟩ : ScrapedPage).content ≠ "" ∧
      (⟨"https://careers.example/open-roles", "Senior PM role"⟩ : ScrapedPage).content.length ≤ 8000) :=
  ⟨by decide,
    claim10_invariant okFetch errFetch ["https://careers.example/open-roles"]
      ⟨"https://careers.example/open-roles", "Senior PM role"⟩ (by decide)⟩

/-! ### Claim C8 -/

/-- Claim C8: if the credential environment value is missing, is not valid
JSON, or parses to an object lacking any of the six required fields, then
`send_email` fails before any mail submission is attempted — the `ok`
payload, which is the submitted message, is never produced. -/
theorem claim8_credentials (env : Option String) (parse : String → Option Json)
    (yourEmail today html : String) (n : Nat) :
    (env = none → (send_email env parse yourEmail today html n).isOk = false) ∧
    (∀ cj, env = some cj → parse cj = none →
        (send_email env parse yourEmail today html n).isOk = false) ∧
    (∀ cj kvs, env = some cj → parse cj = some (Json.obj kvs) →
        (pyIndex kvs "token" = none ∨ pyIndex kvs "refresh_token" = none ∨
         pyIndex kvs "token_uri" = none ∨ pyIndex kvs "client_id" = none ∨
         pyIndex kvs "client_secret" = none ∨ pyIndex kvs "scopes" = none) →
        (send_email env parse yourEmail today html n).isOk = false) := by
  refine ⟨?_, ?_, ?_⟩
  · rintro rfl
    rfl
  · rintro cj rfl hp
    simp only [send_email, hp]
    rfl
  · rintro cj kvs rfl hp hmiss
    rcases h1 : pyIndex kvs "token" with _ | v1 <;>
      rcases h2 : pyIndex kvs "refresh_token" with _ | v2 <;>
      rcases h3 : pyIndex kvs "token_uri" with _ | v3 <;>
      rcases h4 : pyIndex kvs "client_id" with _ | v4 <;>
      rcases h5 : pyIndex kvs "client_secret" with _ | v5 <;>
      rcases h6 : pyIndex kvs "scopes" with _ | v6 <;>
      simp_all [send_email] <;>
      rfl

/-- Witness for C8 with the credential variable absent. -/
theorem claim8_credentials_witness :
    ((none : Option String) = none) ∧
    (send_email none parseEx "me@example.com" "October 12, 2025"
        "digest body" 3).isOk = false :=
  ⟨rfl, (claim8_credentials none parseEx "me@example.com" "October 12, 2025"
    "digest body" 3).1 rfl⟩

end JobDigest
